import Mathlib

/-!
# Verification of the scikit-multiflow stream/classifier contracts

Shallow embedding of `src/skmultiflow/data/generators/multilabel_generator.py`
(class `MultilabelGenerator`) and `src/skmultiflow/classification/base.py`
(class `BaseClassifier`), with theorems settling the frozen claims about the
stream-traversal contract (cursor bookkeeping, exhaustion, restart, batch
slicing, label-shape policy) and the classifier delegation contract.

Conventions of the embedding:
* Matrices are lists of rows; scalar entry types are parameters `α` (features)
  and `β` (labels), since the concrete values come from the external
  `make_multilabel_classification` collaborator and no claim computes on them.
* The Python attribute `instance_index` (the cursor) and `batch_size` are
  `Nat`: every claim quantifies over batch sizes ≥ 0 and the cursor starts at
  0 and is only ever incremented, so it never goes negative in the states the
  claims range over.
* numpy basic slicing `M[lo:hi, :]` with nonnegative bounds clamps both bounds
  to the row count and never raises `IndexError`; it is embedded as the total
  function `sliceClamp` wrapped in `npSlice`, which returns `some` to record
  that the operation succeeds (the `except IndexError` arm of `next_instance`
  is kept in the embedding and matches the `none` case).
* Python `None` is `Option.none`; the cached pair
  `(current_instance_x, current_instance_y)` uses `Option`.
-/

/-- Rows of `M[lo:hi, :]` under numpy basic-slicing semantics for
nonnegative bounds: both bounds are clamped to the number of rows.
`(l.take hi).drop lo` has `max 0 (min hi l.length - min lo l.length)`
elements, exactly numpy's count. -/
def sliceClamp (l : List γ) (lo hi : Nat) : List γ :=
  (l.take hi).drop lo

/-- numpy basic slicing never raises `IndexError`: the embedded slice is
total and always returns `some`.  The `Option` layer exists so that the
`try/except IndexError` structure of `next_instance` can be embedded
faithfully. -/
def npSlice (l : List γ) (lo hi : Nat) : Option (List γ) :=
  some (sliceClamp l lo hi)

/-- The labels half of a batch: `numpy.ndarray.flatten` turns the 2-D slice
into a 1-D sequence when `num_target_tasks < 2`, otherwise the 2-D slice is
returned as is. -/
inductive LabelBatch (β : Type) where
  | mat (rows : List (List β))
  | flat (xs : List β)
deriving DecidableEq

/-- State of `MultilabelGenerator` (multilabel_generator.py, lines 68-107):
the matrices produced by the external generator, the metadata counters set by
`__configure`, the read cursor `instance_index`, and the cached last batch. -/
structure MLGen (α β : Type) where
  X : List (List α)
  y : List (List β)
  num_samples : Nat
  num_features : Nat
  num_target_tasks : Nat
  num_labels : Nat
  instance_index : Nat
  current_instance_x : Option (List (List α))
  current_instance_y : Option (LabelBatch β)
deriving DecidableEq

namespace MLGen

/-- `__init__` followed by `__configure`: the matrices `X`, `y` are the output
of the external `make_multilabel_classification(n_samples, n_features,
n_classes=n_targets, n_labels)` call; the counters are set from the
constructor parameters, the cursor starts at 0 and the cached batch at
`None`. -/
def mk_configured (X : List (List α)) (y : List (List β))
    (n_samples n_features n_targets n_labels : Nat) : MLGen α β :=
  { X := X
    y := y
    num_samples := n_samples
    num_features := n_features
    num_target_tasks := n_targets
    num_labels := n_labels
    instance_index := 0
    current_instance_x := none
    current_instance_y := none }

/-- `estimated_remaining_instances` (lines 109-110): Python integer
subtraction, so the result may be negative; embedded in `Int`. -/
def estimated_remaining_instances (s : MLGen α β) : Int :=
  (s.num_samples : Int) - (s.instance_index : Int)

/-- `has_more_instances` (lines 112-113): `num_samples - instance_index > 0`
on Python integers. -/
def has_more_instances (s : MLGen α β) : Bool :=
  (s.num_samples : Int) - (s.instance_index : Int) > 0

/-- `next_instance` (lines 115-144): advance the cursor by `batch_size`
first, then slice `[instance_index - batch_size, instance_index)` out of both
matrices; flatten the label slice when `num_target_tasks < 2`; cache and
return the pair.  The `none, none` arm is the `except IndexError` branch
(lines 140-142), which sets both cached fields to `None`. -/
def next_instance (s : MLGen α β) (batch_size : Nat := 1) :
    (Option (List (List α)) × Option (LabelBatch β)) × MLGen α β :=
  let idx := s.instance_index + batch_size
  match npSlice s.X (idx - batch_size) idx, npSlice s.y (idx - batch_size) idx with
  | some cx, some cyRows =>
      let cy : LabelBatch β :=
        if s.num_target_tasks < 2 then .flat cyRows.flatten else .mat cyRows
      ((some cx, some cy),
        { s with instance_index := idx,
                 current_instance_x := some cx,
                 current_instance_y := some cy })
  | _, _ =>
      ((none, none),
        { s with instance_index := idx,
                 current_instance_x := none,
                 current_instance_y := none })

/-- `is_restartable` (lines 146-147): always `True`. -/
def is_restartable (_s : MLGen α β) : Bool :=
  true

/-- `restart` (lines 149-150): the body is `pass` — no state change. -/
def restart (s : MLGen α β) : MLGen α β :=
  s

/-- `get_num_attributes` (lines 164-165). -/
def get_num_attributes (s : MLGen α β) : Nat :=
  s.num_features

/-- `get_num_targets` (lines 167-168). -/
def get_num_targets (s : MLGen α β) : Nat :=
  s.num_target_tasks

/-- `get_last_instance` (lines 176-177): return the cached pair, touching
nothing.  The unchanged state is returned explicitly so that the frame
property is a statement about the embedding. -/
def get_last_instance (s : MLGen α β) :
    (Option (List (List α)) × Option (LabelBatch β)) × MLGen α β :=
  ((s.current_instance_x, s.current_instance_y), s)

/-- Iterated `next_instance` calls with a fixed batch size: the state after
`k` calls. -/
def runCalls (b : Nat) : Nat → MLGen α β → MLGen α β
  | 0, s => s
  | k + 1, s => runCalls b k (next_instance s b).2

/-- States reachable from a given constructed stream through the operations
the claims quantify over: any number of `next_instance` calls with
`batch_size ≥ 1`, `restart`, and the read-only accessors (which do not change
the state, so `get_last_instance` is covered by its frame property). -/
inductive Reachable (s0 : MLGen α β) : MLGen α β → Prop where
  | init : Reachable s0 s0
  | step_next {s : MLGen α β} {b : Nat} (hs : Reachable s0 s) (hb : 1 ≤ b) :
      Reachable s0 (next_instance s b).2
  | step_restart {s : MLGen α β} (hs : Reachable s0 s) :
      Reachable s0 (restart s)

end MLGen

/-- `BaseClassifier` (base.py, lines 4-85): the capability set of the
abstract incremental-classifier contract.  `M` is the opaque internal model
state, `XT`/`YT` the sample and label batch types, `CT` the class-set type,
`P`/`Q`/`R` the result types of `predict`, `predict_proba` and `score`.
A concrete classifier supplies the five abstract operations; `first_fit` is
the one method with a default body and is defined below. -/
structure BaseClassifier (M XT YT CT P Q R : Type) where
  fit : M → XT → YT → Option CT → M
  partial_fit : M → XT → YT → Option CT → M
  predict : M → XT → P
  predict_proba : M → XT → Q
  score : M → XT → YT → R

/-- `first_fit` (base.py, lines 13-15): the default body is
`self.fit(X, y, classes)`. -/
def BaseClassifier.first_fit (c : BaseClassifier M XT YT CT P Q R)
    (m : M) (X : XT) (y : YT) (classes : Option CT := none) : M :=
  c.fit m X y classes

/-! ## Helper lemmas about the embedded slicing and traversal -/

theorem sliceClamp_length (l : List γ) (lo hi : Nat) :
    (sliceClamp l lo hi).length = min hi l.length - lo := by
  simp [sliceClamp]

theorem sliceClamp_eq_nil_of_le {l : List γ} {lo : Nat} (h : l.length ≤ lo)
    (hi : Nat) : sliceClamp l lo hi = [] := by
  apply List.eq_nil_of_length_eq_zero
  rw [sliceClamp_length]
  omega

theorem sliceClamp_subset (l : List γ) (lo hi : Nat) :
    sliceClamp l lo hi ⊆ l :=
  fun _x hx => (l.take_subset hi) ((l.take hi).drop_subset lo hx)

theorem flatten_length_of_width {w : Nat} :
    ∀ {l : List (List γ)}, (∀ r ∈ l, r.length = w) →
      l.flatten.length = l.length * w
  | [], _ => by simp
  | r :: l, h => by
      have hr : r.length = w := h r (by simp)
      have hl : ∀ x ∈ l, x.length = w := fun x hx => h x (by simp [hx])
      simp [List.flatten_cons, flatten_length_of_width hl, hr,
        Nat.succ_mul, Nat.add_comm]

namespace MLGen

theorem next_instance_eq (s : MLGen α β) (b : Nat) :
    next_instance s b =
      ((some (sliceClamp s.X s.instance_index (s.instance_index + b)),
        some (if s.num_target_tasks < 2 then
                .flat (sliceClamp s.y s.instance_index (s.instance_index + b)).flatten
              else
                .mat (sliceClamp s.y s.instance_index (s.instance_index + b)))),
       { s with
          instance_index := s.instance_index + b,
          current_instance_x :=
            some (sliceClamp s.X s.instance_index (s.instance_index + b)),
          current_instance_y :=
            some (if s.num_target_tasks < 2 then
                    .flat (sliceClamp s.y s.instance_index (s.instance_index + b)).flatten
                  else
                    .mat (sliceClamp s.y s.instance_index (s.instance_index + b))) }) := by
  simp [next_instance, npSlice]

theorem next_instance_snd_fields (s : MLGen α β) (b : Nat) :
    (next_instance s b).2.X = s.X ∧
    (next_instance s b).2.y = s.y ∧
    (next_instance s b).2.num_samples = s.num_samples ∧
    (next_instance s b).2.num_target_tasks = s.num_target_tasks ∧
    (next_instance s b).2.instance_index = s.instance_index + b := by
  rw [next_instance_eq]
  exact ⟨rfl, rfl, rfl, rfl, rfl⟩

theorem runCalls_X (b k : Nat) (s : MLGen α β) : (runCalls b k s).X = s.X := by
  induction k generalizing s with
  | zero => rfl
  | succ k ih => rw [runCalls, ih, (next_instance_snd_fields s b).1]

theorem runCalls_y (b k : Nat) (s : MLGen α β) : (runCalls b k s).y = s.y := by
  induction k generalizing s with
  | zero => rfl
  | succ k ih => rw [runCalls, ih, (next_instance_snd_fields s b).2.1]

theorem runCalls_num_samples (b k : Nat) (s : MLGen α β) :
    (runCalls b k s).num_samples = s.num_samples := by
  induction k generalizing s with
  | zero => rfl
  | succ k ih => rw [runCalls, ih, (next_instance_snd_fields s b).2.2.1]

theorem runCalls_num_target_tasks (b k : Nat) (s : MLGen α β) :
    (runCalls b k s).num_target_tasks = s.num_target_tasks := by
  induction k generalizing s with
  | zero => rfl
  | succ k ih => rw [runCalls, ih, (next_instance_snd_fields s b).2.2.2.1]

theorem runCalls_instance_index (b k : Nat) (s : MLGen α β) :
    (runCalls b k s).instance_index = s.instance_index + k * b := by
  induction k generalizing s with
  | zero => simp [runCalls]
  | succ k ih =>
      rw [runCalls, ih, (next_instance_snd_fields s b).2.2.2.2]
      ring

end MLGen

/-! ## Concrete streams used by witnesses and counterexamples -/

/-- A 2-sample, 1-feature, 1-target stream with distinguishable rows. -/
def twoRowStream : MLGen Int Int :=
  MLGen.mk_configured [[0], [1]] [[5], [7]] 2 1 1 1

/-- A 3-sample, 1-feature, 2-target stream (multilabel rows of width 2). -/
def twoTargetStream : MLGen Int Int :=
  MLGen.mk_configured [[0], [1], [2]] [[1, 0], [0, 1], [1, 1]] 3 1 2 2

/-! ## Claims -/

/-- C1: in every stream state whose cursor has already passed
`total_samples` (`num_samples ≤ instance_index`), `next_instance(batch_size)`
returns the exhaustion signal — a pair of empty batches — and does not take
the exception branch (it never returns the `(None, None)` of the
`except IndexError` arm).  The hypotheses `hX`, `hy` record the generator's
guarantee that both matrices have exactly `num_samples` rows. -/
theorem C1_exhausted_returns_empty_batch {α β : Type} (s : MLGen α β) (b : Nat)
    (hX : s.X.length = s.num_samples) (hy : s.y.length = s.num_samples)
    (h : s.num_samples ≤ s.instance_index) :
    (MLGen.next_instance s b).1.1 = some ([] : List (List α)) ∧
    ((MLGen.next_instance s b).1.2 = some (LabelBatch.flat ([] : List β)) ∨
     (MLGen.next_instance s b).1.2 = some (LabelBatch.mat ([] : List (List β)))) ∧
    (MLGen.next_instance s b).1 ≠ (none, none) := by
  have hx0 : sliceClamp s.X s.instance_index (s.instance_index + b) = [] :=
    sliceClamp_eq_nil_of_le (by omega) _
  have hy0 : sliceClamp s.y s.instance_index (s.instance_index + b) = [] :=
    sliceClamp_eq_nil_of_le (by omega) _
  rw [MLGen.next_instance_eq]
  refine ⟨by simp [hx0], ?_, by simp⟩
  by_cases ht : s.num_target_tasks < 2
  · exact Or.inl (by simp [ht, hy0])
  · exact Or.inr (by simp [ht, hy0])

/-- Witness for C1: `twoRowStream` after one `next_instance(2)` call has
cursor 2 = `total_samples`; the next call returns the empty batch. -/
theorem C1_witness :
    ((MLGen.next_instance twoRowStream 2).2.X.length =
        (MLGen.next_instance twoRowStream 2).2.num_samples ∧
     (MLGen.next_instance twoRowStream 2).2.y.length =
        (MLGen.next_instance twoRowStream 2).2.num_samples ∧
     (MLGen.next_instance twoRowStream 2).2.num_samples ≤
        (MLGen.next_instance twoRowStream 2).2.instance_index) ∧
    ((MLGen.next_instance (MLGen.next_instance twoRowStream 2).2 1).1.1 =
        some ([] : List (List Int)) ∧
     ((MLGen.next_instance (MLGen.next_instance twoRowStream 2).2 1).1.2 =
        some (LabelBatch.flat ([] : List Int)) ∨
      (MLGen.next_instance (MLGen.next_instance twoRowStream 2).2 1).1.2 =
        some (LabelBatch.mat ([] : List (List Int)))) ∧
     (MLGen.next_instance (MLGen.next_instance twoRowStream 2).2 1).1 ≠
        (none, none)) :=
  ⟨⟨by decide, by decide, by decide⟩,
   C1_exhausted_returns_empty_batch (MLGen.next_instance twoRowStream 2).2 1
     (by decide) (by decide) (by decide)⟩

/-- C2: for a stream built with `sample_count = N`, a batch size `b ≥ 1`
dividing N, starting at cursor 0: each of the first `N / b` calls returns a
non-empty feature batch of exactly `b` rows (so the row counts of the
`N / b` batches sum to `(N / b) * b = N`), `has_more_instances` is `false`
after the `(N / b)`-th call, and the following call returns the empty
exhaustion signal. -/
theorem C2_even_division_traversal {α β : Type} (X : List (List α))
    (y : List (List β)) (nf nt nl N b : Nat) (hb : 1 ≤ b) (hdvd : b ∣ N)
    (hX : X.length = N) (hy : y.length = N) :
    (∀ k < N / b, ∃ cx,
        (MLGen.next_instance
          (MLGen.runCalls b k (MLGen.mk_configured X y N nf nt nl)) b).1.1 =
            some cx ∧ cx.length = b ∧ cx ≠ []) ∧
    N / b * b = N ∧
    MLGen.has_more_instances
      (MLGen.runCalls b (N / b) (MLGen.mk_configured X y N nf nt nl)) = false ∧
    (MLGen.next_instance
      (MLGen.runCalls b (N / b) (MLGen.mk_configured X y N nf nt nl)) b).1.1 =
        some ([] : List (List α)) := by
  have hNb : N / b * b = N := Nat.div_mul_cancel hdvd
  have hXk : ∀ k, (MLGen.runCalls b k (MLGen.mk_configured X y N nf nt nl)).X = X :=
    fun k => MLGen.runCalls_X b k _
  have hik : ∀ k, (MLGen.runCalls b k (MLGen.mk_configured X y N nf nt nl)).instance_index
      = k * b := by
    intro k
    rw [MLGen.runCalls_instance_index]
    simp [MLGen.mk_configured]
  refine ⟨?_, hNb, ?_, ?_⟩
  · intro k hk
    refine ⟨sliceClamp X (k * b) (k * b + b), ?_, ?_, ?_⟩
    · rw [MLGen.next_instance_eq, hXk, hik]
    · have hkb : k * b + b ≤ N := by
        have h1 : (k + 1) * b ≤ N / b * b :=
          Nat.mul_le_mul_right b (Nat.succ_le_of_lt hk)
        have h2 : (k + 1) * b = k * b + b := by ring
        omega
      rw [sliceClamp_length, hX]
      omega
    · intro hnil
      have : (sliceClamp X (k * b) (k * b + b)).length = 0 := by
        rw [hnil]; rfl
      have hkb : k * b + b ≤ N := by
        have h1 : (k + 1) * b ≤ N / b * b :=
          Nat.mul_le_mul_right b (Nat.succ_le_of_lt hk)
        have h2 : (k + 1) * b = k * b + b := by ring
        omega
      rw [sliceClamp_length, hX] at this
      omega
  · have hns : (MLGen.runCalls b (N / b) (MLGen.mk_configured X y N nf nt nl)).num_samples
        = N := by
      rw [MLGen.runCalls_num_samples]
      rfl
    simp only [MLGen.has_more_instances, hns, hik, hNb]
    simp
  · rw [MLGen.next_instance_eq, hXk, hik, hNb,
      sliceClamp_eq_nil_of_le (le_of_eq hX) _]

/-- Witness for C2: `twoRowStream` with `N = 2`, `b = 1`. -/
theorem C2_witness :
    (1 ≤ 1 ∧ 1 ∣ 2 ∧ ([[0], [1]] : List (List Int)).length = 2 ∧
     ([[5], [7]] : List (List Int)).length = 2) ∧
    ((∀ k < 2 / 1, ∃ cx,
        (MLGen.next_instance (MLGen.runCalls 1 k twoRowStream) 1).1.1 =
            some cx ∧ cx.length = 1 ∧ cx ≠ []) ∧
     2 / 1 * 1 = 2 ∧
     MLGen.has_more_instances (MLGen.runCalls 1 (2 / 1) twoRowStream) = false ∧
     (MLGen.next_instance (MLGen.runCalls 1 (2 / 1) twoRowStream) 1).1.1 =
        some ([] : List (List Int))) :=
  ⟨⟨by decide, by decide, by decide, by decide⟩,
   C2_even_division_traversal (α := Int) (β := Int) [[0], [1]] [[5], [7]] 1 1 1 2 1
     (by decide) (by decide) (by decide) (by decide)⟩

/-- C3 (code bug): the stream declares itself restartable
(`is_restartable` returns `True`, lines 146-147), but `restart` (lines
149-150) has the body `pass`: it leaves the whole state — in particular the
cursor — unchanged.  Evaluating the code at the failing input: on
`twoRowStream`, after one `next_instance(1)` call (which returned the first
row `[[0]]`), `restart()` leaves the cursor at 1 and the first
`next_instance(1)` after restart returns the second row `[[1]]`, not a batch
identical to the very first one. -/
theorem C3_restart_noop_breaks_replay :
    MLGen.is_restartable (MLGen.next_instance twoRowStream 1).2 = true ∧
    MLGen.restart (MLGen.next_instance twoRowStream 1).2 =
      (MLGen.next_instance twoRowStream 1).2 ∧
    (MLGen.restart (MLGen.next_instance twoRowStream 1).2).instance_index = 1 ∧
    (MLGen.next_instance twoRowStream 1).1.1 = some [[0]] ∧
    (MLGen.next_instance
      (MLGen.restart (MLGen.next_instance twoRowStream 1).2) 1).1.1 =
        some [[1]] ∧
    (some [[1]] : Option (List (List Int))) ≠ some [[0]] := by
  decide

/-- C4 counterexample: in a state with `0 < remaining rows < batch_size`
(here `twoRowStream` after one `next_instance(1)` call: cursor 1, one row
left, batch size 2), the straddling call does NOT return the exhaustion
signal: it silently returns the smaller, valid-but-incomplete one-row batch
`[[1]]`. -/
theorem C4_counterexample :
    0 < (MLGen.next_instance twoRowStream 1).2.num_samples -
        (MLGen.next_instance twoRowStream 1).2.instance_index ∧
    (MLGen.next_instance twoRowStream 1).2.num_samples -
        (MLGen.next_instance twoRowStream 1).2.instance_index < 2 ∧
    (MLGen.next_instance (MLGen.next_instance twoRowStream 1).2 2).1.1 =
      some [[1]] ∧
    (some [[1]] : Option (List (List Int))) ≠ some [] := by
  decide

/-- C4 as amended: a `next_instance(b)` call that straddles the end of the
dataset (`instance_index < num_samples < instance_index + b`) does not crash
and silently returns the partial tail batch — the remaining
`num_samples − instance_index` rows, a non-empty batch strictly smaller than
`b`; the cursor passes `total_samples`, and from then on every call returns
the empty exhaustion signal deterministically. -/
theorem C4_straddle_returns_partial_tail {α β : Type} (s : MLGen α β)
    (b b2 : Nat) (hX : s.X.length = s.num_samples)
    (h1 : s.instance_index < s.num_samples)
    (h2 : s.num_samples < s.instance_index + b) :
    (∃ cx, (MLGen.next_instance s b).1.1 = some cx ∧
       cx.length = s.num_samples - s.instance_index ∧
       0 < cx.length ∧ cx.length < b) ∧
    s.num_samples ≤ (MLGen.next_instance s b).2.instance_index ∧
    (MLGen.next_instance (MLGen.next_instance s b).2 b2).1.1 =
      some ([] : List (List α)) := by
  obtain ⟨hsX, -, -, -, hsi⟩ := MLGen.next_instance_snd_fields s b
  refine ⟨⟨sliceClamp s.X s.instance_index (s.instance_index + b), ?_, ?_, ?_, ?_⟩,
    by omega, ?_⟩
  · rw [MLGen.next_instance_eq]
  · rw [sliceClamp_length, hX]; omega
  · rw [sliceClamp_length, hX]; omega
  · rw [sliceClamp_length, hX]; omega
  · rw [MLGen.next_instance_eq, hsX, hsi,
      sliceClamp_eq_nil_of_le (by omega) _]

/-- Witness for C4: the straddling call on `twoRowStream` after one
`next_instance(1)` call, with `b = 2` and a follow-up call of size 1. -/
theorem C4_witness :
    ((MLGen.next_instance twoRowStream 1).2.X.length =
        (MLGen.next_instance twoRowStream 1).2.num_samples ∧
     (MLGen.next_instance twoRowStream 1).2.instance_index <
        (MLGen.next_instance twoRowStream 1).2.num_samples ∧
     (MLGen.next_instance twoRowStream 1).2.num_samples <
        (MLGen.next_instance twoRowStream 1).2.instance_index + 2) ∧
    ((∃ cx, (MLGen.next_instance (MLGen.next_instance twoRowStream 1).2 2).1.1 =
        some cx ∧
        cx.length = (MLGen.next_instance twoRowStream 1).2.num_samples -
          (MLGen.next_instance twoRowStream 1).2.instance_index ∧
        0 < cx.length ∧ cx.length < 2) ∧
     (MLGen.next_instance twoRowStream 1).2.num_samples ≤
        (MLGen.next_instance (MLGen.next_instance twoRowStream 1).2 2).2.instance_index ∧
     (MLGen.next_instance
        (MLGen.next_instance (MLGen.next_instance twoRowStream 1).2 2).2 1).1.1 =
        some ([] : List (List Int))) :=
  ⟨⟨by decide, by decide, by decide⟩,
   C4_straddle_returns_partial_tail (MLGen.next_instance twoRowStream 1).2 2 1
     (by decide) (by decide) (by decide)⟩

/-- C5 counterexample: the bound `cursor ≤ total_samples` fails on a
reachable state.  From a 1-sample stream, the single call
`next_instance(2)` (batch size ≥ 1) advances the cursor to 2 > 1 =
`total_samples`. -/
theorem C5_counterexample :
    MLGen.Reachable (MLGen.mk_configured [[(0 : Int)]] [[(0 : Int)]] 1 1 1 1)
      (MLGen.next_instance
        (MLGen.mk_configured [[(0 : Int)]] [[(0 : Int)]] 1 1 1 1) 2).2 ∧
    (MLGen.next_instance
      (MLGen.mk_configured [[(0 : Int)]] [[(0 : Int)]] 1 1 1 1) 2).2.num_samples <
    (MLGen.next_instance
      (MLGen.mk_configured [[(0 : Int)]] [[(0 : Int)]] 1 1 1 1) 2).2.instance_index :=
  ⟨MLGen.Reachable.step_next MLGen.Reachable.init (by decide), by decide⟩

/-- C5 as amended: in every state the cursor is a nonnegative integer, and
it is monotonically non-decreasing under every operation — `next_instance`
adds `batch_size`, and `restart` and `get_last_instance` leave it unchanged
(`restart` performs no reset at all).  The upper bound
`cursor ≤ total_samples` does not hold: a `next_instance` call whose batch
overruns the end pushes the cursor past `total_samples`. -/
theorem C5_cursor_nonneg_and_monotone {α β : Type} (s : MLGen α β) (b : Nat) :
    (0 : Int) ≤ (s.instance_index : Int) ∧
    (MLGen.next_instance s b).2.instance_index = s.instance_index + b ∧
    s.instance_index ≤ (MLGen.next_instance s b).2.instance_index ∧
    (MLGen.restart s).instance_index = s.instance_index ∧
    (MLGen.get_last_instance s).2.instance_index = s.instance_index := by
  obtain ⟨-, -, -, -, hsi⟩ := MLGen.next_instance_snd_fields s b
  exact ⟨Int.natCast_nonneg _, hsi, by omega, rfl, rfl⟩

/-- C6 counterexample: a reachable state in which the externally surfaced
`estimated_remaining_instances()` is negative.  From a 1-sample stream, the
single call `next_instance(3)` leaves the cursor at 3, and the accessor
then returns 1 − 3 = −2 < 0 to its caller. -/
theorem C6_counterexample :
    MLGen.Reachable (MLGen.mk_configured [[(0 : Int)]] [[(0 : Int)]] 1 1 1 1)
      (MLGen.next_instance
        (MLGen.mk_configured [[(0 : Int)]] [[(0 : Int)]] 1 1 1 1) 3).2 ∧
    MLGen.estimated_remaining_instances
      (MLGen.next_instance
        (MLGen.mk_configured [[(0 : Int)]] [[(0 : Int)]] 1 1 1 1) 3).2 = -2 ∧
    MLGen.estimated_remaining_instances
      (MLGen.next_instance
        (MLGen.mk_configured [[(0 : Int)]] [[(0 : Int)]] 1 1 1 1) 3).2 < 0 :=
  ⟨MLGen.Reachable.step_next MLGen.Reachable.init (by decide), by decide, by decide⟩

/-- C6 as amended: in every state, `estimated_remaining_instances()`
returns the Python integer `total_samples − cursor`, and
`has_more_instances()` is true exactly when that value is positive; the
value is returned to external callers as-is, so it is negative whenever the
cursor has overrun `total_samples`. -/
theorem C6_estimated_remaining_eq_sub {α β : Type} (s : MLGen α β) :
    MLGen.estimated_remaining_instances s =
      (s.num_samples : Int) - (s.instance_index : Int) ∧
    (MLGen.has_more_instances s = true ↔
      0 < MLGen.estimated_remaining_instances s) ∧
    (MLGen.estimated_remaining_instances s < 0 ↔
      s.num_samples < s.instance_index) := by
  refine ⟨rfl, ?_, ?_⟩
  · simp [MLGen.has_more_instances, MLGen.estimated_remaining_instances]
  · simp [MLGen.estimated_remaining_instances]

/-- C7: for an in-bounds call (`instance_index + b ≤` the row count of the
label matrix, whose rows all have width `num_target_tasks`): when
`num_target_tasks = 1` the returned labels are the flattened 1-D sequence of
length `b`; when `num_target_tasks ≥ 2` they are the 2-D slice with `b` rows
of width `num_target_tasks`. -/
theorem C7_label_shape_policy {α β : Type} (s : MLGen α β) (b : Nat)
    (hin : s.instance_index + b ≤ s.y.length)
    (hw : ∀ r ∈ s.y, r.length = s.num_target_tasks) :
    (s.num_target_tasks = 1 →
      ∃ l, (MLGen.next_instance s b).1.2 = some (LabelBatch.flat l) ∧
        l.length = b) ∧
    (2 ≤ s.num_target_tasks →
      ∃ rows, (MLGen.next_instance s b).1.2 = some (LabelBatch.mat rows) ∧
        rows.length = b ∧ ∀ r ∈ rows, r.length = s.num_target_tasks) := by
  have hslen : (sliceClamp s.y s.instance_index (s.instance_index + b)).length = b := by
    rw [sliceClamp_length]
    omega
  have hsw : ∀ r ∈ sliceClamp s.y s.instance_index (s.instance_index + b),
      r.length = s.num_target_tasks :=
    fun r hr => hw r (sliceClamp_subset s.y _ _ hr)
  constructor
  · intro ht
    refine ⟨(sliceClamp s.y s.instance_index (s.instance_index + b)).flatten, ?_, ?_⟩
    · rw [MLGen.next_instance_eq]
      simp [ht]
    · rw [flatten_length_of_width hsw, hslen, ht, Nat.mul_one]
  · intro ht
    refine ⟨sliceClamp s.y s.instance_index (s.instance_index + b), ?_, hslen, hsw⟩
    rw [MLGen.next_instance_eq]
    have hlt : ¬ s.num_target_tasks < 2 := by omega
    simp [hlt]

/-- Witness for C7: the flat branch on `twoRowStream` (one target) and the
2-D branch on `twoTargetStream` (two targets, batch of 3). -/
theorem C7_witness :
    (twoRowStream.instance_index + 1 ≤ twoRowStream.y.length ∧
     (∀ r ∈ twoRowStream.y, r.length = twoRowStream.num_target_tasks)) ∧
    ((twoRowStream.num_target_tasks = 1 →
      ∃ l, (MLGen.next_instance twoRowStream 1).1.2 = some (LabelBatch.flat l) ∧
        l.length = 1) ∧
     (2 ≤ twoRowStream.num_target_tasks →
      ∃ rows, (MLGen.next_instance twoRowStream 1).1.2 = some (LabelBatch.mat rows) ∧
        rows.length = 1 ∧ ∀ r ∈ rows, r.length = twoRowStream.num_target_tasks)) ∧
    (twoTargetStream.instance_index + 3 ≤ twoTargetStream.y.length ∧
     (∀ r ∈ twoTargetStream.y, r.length = twoTargetStream.num_target_tasks)) ∧
    ((twoTargetStream.num_target_tasks = 1 →
      ∃ l, (MLGen.next_instance twoTargetStream 3).1.2 = some (LabelBatch.flat l) ∧
        l.length = 3) ∧
     (2 ≤ twoTargetStream.num_target_tasks →
      ∃ rows, (MLGen.next_instance twoTargetStream 3).1.2 = some (LabelBatch.mat rows) ∧
        rows.length = 3 ∧ ∀ r ∈ rows, r.length = twoTargetStream.num_target_tasks)) :=
  ⟨⟨by decide, by decide⟩,
   C7_label_shape_policy twoRowStream 1 (by decide) (by decide),
   ⟨by decide, by decide⟩,
   C7_label_shape_policy twoTargetStream 3 (by decide) (by decide)⟩

/-- C8: `get_last_instance` returns exactly the cached pair and changes
nothing — the returned state is the input state, so cursor, matrices and
cache are all untouched; and the pair returned by any `next_instance` call
is exactly the pair it caches in the post-state, so `get_last_instance`
after `next_instance` reproduces that call's result. -/
theorem C8_get_last_instance_pure_read {α β : Type} (s : MLGen α β) :
    MLGen.get_last_instance s =
      ((s.current_instance_x, s.current_instance_y), s) ∧
    ∀ b, (MLGen.next_instance s b).1 =
      ((MLGen.next_instance s b).2.current_instance_x,
       (MLGen.next_instance s b).2.current_instance_y) := by
  refine ⟨rfl, fun b => ?_⟩
  rw [MLGen.next_instance_eq]

/-- C9: the default `first_fit(X, y, classes)` of the base classifier
contract is exactly `fit(X, y, classes)` — a direct delegation with the same
arguments, for every classifier, model state and input. -/
theorem C9_first_fit_delegates_to_fit {M XT YT CT P Q R : Type}
    (c : BaseClassifier M XT YT CT P Q R) (m : M) (X : XT) (y : YT)
    (classes : Option CT) :
    c.first_fit m X y classes = c.fit m X y classes :=
  rfl

/-- C10: `next_instance` is total on every state and batch size: the numpy
slice clamps out-of-range bounds instead of raising, so the
`except IndexError` arm is never taken and the result is always a pair of
present (`some`) arrays — the features with the clamped row count
`min (cursor + b) |X| − cursor`, possibly zero. -/
theorem C10_next_instance_total_never_none {α β : Type} (s : MLGen α β)
    (b : Nat) :
    ∃ cx cy, (MLGen.next_instance s b).1 = (some cx, some cy) ∧
      cx.length = min (s.instance_index + b) s.X.length - s.instance_index ∧
      (MLGen.next_instance s b).1.1 ≠ none ∧
      (MLGen.next_instance s b).1.2 ≠ none := by
  rw [MLGen.next_instance_eq]
  exact ⟨_, _, rfl, sliceClamp_length _ _ _, by simp, by simp⟩
